import Mathlib

/-!
# VectorMotionPro — verification of the SVG converter against its specification

Shallow embedding of the repository's conversion pipeline (`SvgConverter`:
`getDimensions`, `captureFrame`, `generateGif`, `generateVideo`, `convert`) and of
the metadata service (`analyzeSvg`).  JavaScript numbers are modelled as `ℚ`
(every finite JS float is a rational); JS string/number coercion helpers that the
source relies on (`parseFloat`, `Number.prototype.toString`, `Math.round`,
`Math.ceil`, the `||` operator) are embedded explicitly below.  Browser-side
capabilities that the code only calls through narrow interfaces (image decoding,
the gifshot assembler, `MediaRecorder.isTypeSupported`, the SMIL
`setCurrentTime` primitive, the Gemini metadata endpoint) are parameters of the
embedded functions.
-/

namespace VectorMotionPro

/-! ### JavaScript numeric primitives -/

/-- `Math.round`: round half away from zero towards positive infinity. -/
def jsRound (q : ℚ) : ℤ := ⌊q + 1/2⌋

/-- Whitespace skipped by `parseFloat`. -/
def isJsSpace (c : Char) : Bool := c == ' ' || c == '\t' || c == '\n' || c == '\r'

/-- Consume a maximal run of decimal digits, returning their values and the rest. -/
def takeDigits : List Char → List ℕ × List Char
  | [] => ([], [])
  | c :: rest =>
    if c.isDigit then
      let p := takeDigits rest
      ((c.toNat - 48) :: p.1, p.2)
    else ([], c :: rest)

/-- Value of a most-significant-first digit list. -/
def digitsToNat (ds : List ℕ) : ℕ := ds.foldl (fun a d => 10 * a + d) 0

/-- Value of a digit list read as a decimal fraction `0.d₁d₂…`. -/
def fracValue (ds : List ℕ) : ℚ := ds.foldr (fun d a => ((d : ℚ) + a) / 10) 0

/-- Optional leading sign; returns (isNegative, rest). -/
def readSign (cs : List Char) : Bool × List Char :=
  match cs with
  | c :: r => if c == '-' then (true, r) else if c == '+' then (false, r) else (false, cs)
  | [] => (false, cs)

/-- Optional fractional part after the integer digits. -/
def afterPoint (cs : List Char) : List ℕ × List Char :=
  match cs with
  | c :: r => if c == '.' then takeDigits r else ([], cs)
  | [] => ([], cs)

/-- Apply a (well-formed) exponent suffix; an invalid exponent is ignored,
as `parseFloat` does. -/
def applyExp (mant : ℚ) (r : List Char) : ℚ :=
  let sg := readSign r
  let ed := takeDigits sg.2
  if ed.1.isEmpty then mant
  else if sg.1 then mant / 10 ^ digitsToNat ed.1 else mant * 10 ^ digitsToNat ed.1

/-- Optional `e`/`E` exponent part. -/
def afterExp (mant : ℚ) (cs : List Char) : ℚ :=
  match cs with
  | c :: r => if c == 'e' || c == 'E' then applyExp mant r else mant
  | [] => mant

/-- JavaScript `parseFloat`: parse the longest numeric prefix, `none` = `NaN`. -/
def jsParseFloat (s : String) : Option ℚ :=
  let cs := s.data.dropWhile isJsSpace
  let sg := readSign cs
  let ip := takeDigits sg.2
  let fp := afterPoint ip.2
  if ip.1.isEmpty && fp.1.isEmpty then none
  else
    let mag : ℚ := (digitsToNat ip.1 : ℚ) + fracValue fp.1
    let mant : ℚ := if sg.1 then -mag else mag
    some (afterExp mant fp.2)

/-- Little-endian decimal digits of a natural number (fuel-driven so that the
kernel can evaluate it). -/
def natDigitsAux : ℕ → ℕ → List ℕ
  | 0, _ => []
  | _ + 1, 0 => []
  | fuel + 1, n + 1 => ((n + 1) % 10) :: natDigitsAux fuel ((n + 1) / 10)

def natDigits (n : ℕ) : List ℕ := natDigitsAux n n

def digitChar (d : ℕ) : Char := Char.ofNat (48 + d)

/-- `Number.prototype.toString` restricted to naturals (`(0).toString() = "0"`). -/
def natToString (n : ℕ) : String :=
  String.mk (if n = 0 then ['0'] else (natDigits n).reverse.map digitChar)

/-- Decimal digits of the fractional part `r/d`, truncated at the fuel. -/
def fracDigitsAux : ℕ → ℕ → ℕ → List ℕ
  | 0, _, _ => []
  | fuel + 1, r, d => if r = 0 then [] else 10 * r / d :: fracDigitsAux fuel (10 * r % d) d

/-- `Number.prototype.toString` on a rational: sign, integer part, then (when the
value is not integral) a decimal point and fraction digits.  JS floats are dyadic
rationals, so for the values the converter meets this agrees with the browser up
to the digit cutoff; the properties the code relies on (`nonempty`, and exact
round-trip through `parseFloat` for integral values) are proved below. -/
def jsNumToString (q : ℚ) : String :=
  let a := |q|
  let ipart := (⌊a⌋).toNat
  let fd := fracDigitsAux 30 (a.num.natAbs % a.den) a.den
  (if q < 0 then "-" else "") ++ natToString ipart ++
    (if fd.isEmpty then "" else "." ++ String.mk (fd.map digitChar))

/-! ### Round-trip lemmas for the digit machinery -/

theorem digitsToNat_append_singleton (l : List ℕ) (d : ℕ) :
    digitsToNat (l ++ [d]) = 10 * digitsToNat l + d := by
  simp [digitsToNat, List.foldl_append]

/-- Value of a little-endian digit list. -/
def littleEndianVal (l : List ℕ) : ℕ := l.foldr (fun d a => d + 10 * a) 0

theorem digitsToNat_reverse (l : List ℕ) :
    digitsToNat l.reverse = littleEndianVal l := by
  induction l with
  | nil => rfl
  | cons d l ih =>
      simp only [List.reverse_cons, digitsToNat_append_singleton, ih, littleEndianVal,
        List.foldr_cons]
      ring

theorem natDigitsAux_spec (fuel : ℕ) :
    ∀ n, n ≤ fuel →
      littleEndianVal (natDigitsAux fuel n) = n ∧ ∀ d ∈ natDigitsAux fuel n, d < 10 := by
  induction fuel with
  | zero =>
      intro n hn
      interval_cases n
      exact ⟨rfl, by intro d hd; cases hd⟩
  | succ fuel ih =>
      intro n hn
      match n with
      | 0 => exact ⟨rfl, by intro d hd; cases hd⟩
      | m + 1 =>
          have hdiv : (m + 1) / 10 ≤ fuel := by
            have h1 : (m + 1) / 10 < m + 1 := Nat.div_lt_self (Nat.succ_pos m) (by norm_num)
            omega
          obtain ⟨hval, hlt⟩ := ih ((m + 1) / 10) hdiv
          constructor
          · show (m + 1) % 10 + 10 * littleEndianVal (natDigitsAux fuel ((m + 1) / 10)) = m + 1
            rw [hval]
            omega
          · intro d hd
            rcases List.mem_cons.mp hd with h | h
            · subst h; exact Nat.mod_lt _ (by norm_num)
            · exact hlt d h

theorem littleEndianVal_natDigits (n : ℕ) : littleEndianVal (natDigits n) = n :=
  (natDigitsAux_spec n n le_rfl).1

theorem natDigits_lt_ten (n : ℕ) : ∀ d ∈ natDigits n, d < 10 :=
  (natDigitsAux_spec n n le_rfl).2

theorem natDigits_ne_nil (n : ℕ) (hn : n ≠ 0) : natDigits n ≠ [] := by
  intro h
  have := littleEndianVal_natDigits n
  rw [h] at this
  exact hn this.symm

theorem digitChar_isDigit (d : ℕ) (h : d < 10) : (digitChar d).isDigit = true := by
  interval_cases d <;> decide

theorem digitChar_not_space (d : ℕ) (h : d < 10) : isJsSpace (digitChar d) = false := by
  interval_cases d <;> decide

theorem digitChar_val (d : ℕ) (h : d < 10) : (digitChar d).toNat - 48 = d := by
  interval_cases d <;> decide

theorem digitChar_ne_minus (d : ℕ) (h : d < 10) : (digitChar d == '-') = false := by
  interval_cases d <;> decide

theorem digitChar_ne_plus (d : ℕ) (h : d < 10) : (digitChar d == '+') = false := by
  interval_cases d <;> decide

theorem takeDigits_map_digitChar (l : List ℕ) (h : ∀ d ∈ l, d < 10) :
    takeDigits (l.map digitChar) = (l, []) := by
  induction l with
  | nil => rfl
  | cons d l ih =>
      have hd : d < 10 := h d (List.mem_cons_self d l)
      have hrest : ∀ x ∈ l, x < 10 := fun x hx => h x (List.mem_cons_of_mem d hx)
      simp only [List.map_cons, takeDigits, digitChar_isDigit d hd, if_true,
        ih hrest, digitChar_val d hd]

theorem dropWhile_space_map_digitChar (l : List ℕ) (h : ∀ d ∈ l, d < 10) :
    (l.map digitChar).dropWhile isJsSpace = l.map digitChar := by
  cases l with
  | nil => rfl
  | cons d l =>
      have hd : d < 10 := h d (List.mem_cons_self d l)
      simp [List.dropWhile, digitChar_not_space d hd]

theorem readSign_map_digitChar (d : ℕ) (l : List ℕ) (h : d < 10) :
    readSign (digitChar d :: l.map digitChar) = (false, digitChar d :: l.map digitChar) := by
  simp [readSign, digitChar_ne_minus d h, digitChar_ne_plus d h]

/-- Evaluate `jsParseFloat` on a string that is a plain run of digits. -/
theorem jsParseFloat_of_digits (s : String) (ds : List ℕ) (hne : ds ≠ [])
    (h1 : readSign (s.data.dropWhile isJsSpace) = (false, s.data.dropWhile isJsSpace))
    (h2 : takeDigits (s.data.dropWhile isJsSpace) = (ds, [])) :
    jsParseFloat s = some (digitsToNat ds : ℚ) := by
  cases ds with
  | nil => exact absurd rfl hne
  | cons d l =>
      simp [jsParseFloat, h1, h2, afterPoint, afterExp, fracValue]

/-- `parseFloat` inverts `natToString`. -/
theorem jsParseFloat_natToString (n : ℕ) : jsParseFloat (natToString n) = some (n : ℚ) := by
  by_cases hn : n = 0
  · subst hn
    have h := jsParseFloat_of_digits (natToString 0) [0] (by simp)
      (by decide) (by decide)
    simpa [digitsToNat] using h
  · have hne := natDigits_ne_nil n hn
    have hlt : ∀ d ∈ (natDigits n).reverse, d < 10 := by
      intro d hd
      exact natDigits_lt_ten n d (List.mem_reverse.mp hd)
    obtain ⟨d0, l0, hl⟩ : ∃ d0 l0, (natDigits n).reverse = d0 :: l0 := by
      cases h : (natDigits n).reverse with
      | nil =>
          exact absurd (by simpa using congrArg List.reverse h) hne
      | cons a b => exact ⟨a, b, rfl⟩
    have hval : digitsToNat (natDigits n).reverse = n := by
      rw [digitsToNat_reverse, littleEndianVal_natDigits]
    have hdata : (natToString n).data = (natDigits n).reverse.map digitChar := by
      simp [natToString, hn]
    have h1 : readSign ((natToString n).data.dropWhile isJsSpace)
        = (false, (natToString n).data.dropWhile isJsSpace) := by
      rw [hdata, dropWhile_space_map_digitChar _ hlt, hl]
      have hd0 : d0 < 10 := by
        apply hlt
        rw [hl]
        exact List.mem_cons_self d0 l0
      exact readSign_map_digitChar d0 l0 hd0
    have h2 : takeDigits ((natToString n).data.dropWhile isJsSpace)
        = ((natDigits n).reverse, []) := by
      rw [hdata, dropWhile_space_map_digitChar _ hlt]
      exact takeDigits_map_digitChar _ hlt
    have hrne : (natDigits n).reverse ≠ [] := by rw [hl]; exact List.cons_ne_nil d0 l0
    rw [jsParseFloat_of_digits (natToString n) _ hrne h1 h2, hval]

/-- On natural numbers, the rational `toString` is just `natToString`. -/
theorem jsNumToString_natCast (n : ℕ) : jsNumToString (n : ℚ) = natToString n := by
  have h0 : ¬((n : ℚ) < 0) := not_lt.mpr (Nat.cast_nonneg n)
  have habs : |(n : ℚ)| = (n : ℚ) := abs_of_nonneg (Nat.cast_nonneg n)
  have hfloor : (⌊(n : ℚ)⌋).toNat = n := by
    rw [Int.floor_natCast]
    exact Int.toNat_natCast n
  have hfrac : fracDigitsAux 30 ((n : ℚ).num.natAbs % (n : ℚ).den) (n : ℚ).den = [] := by
    rw [Rat.den_natCast, Nat.mod_one]
    rfl
  simp only [jsNumToString, habs, hfloor, hfrac]
  simp only [List.isEmpty_nil, if_true, if_neg h0]
  apply String.ext
  simp

/-- `parseFloat` recovers a natural-valued viewBox length from its rendering. -/
theorem jsParseFloat_jsNumToString_nat (n : ℕ) :
    jsParseFloat (jsNumToString (n : ℚ)) = some (n : ℚ) := by
  rw [jsNumToString_natCast, jsParseFloat_natToString]

/-! ### Data model (`src/unnamed/part_000`, `types.ts` section) -/

inductive ExportFormat
  | GIF
  | MP4
  | WEBM
deriving DecidableEq

structure ConverterSettings where
  fps : ℚ
  duration : ℚ
  scale : ℚ
  quality : ℚ
  format : ExportFormat
  transparent : Bool

/-- The facts the converter queries of a parsed `<svg>` root element:
`getAttribute('width')`/`getAttribute('height')` (`none` = attribute absent, i.e.
`null`), and `viewBox.baseVal.width/height` (which the DOM reports as `0` when no
`viewBox` attribute is present). -/
structure SvgRootEl where
  widthAttr : Option String
  heightAttr : Option String
  viewBoxW : ℚ
  viewBoxH : ℚ

/-- An SVG markup string, abstracted as its raw text together with the result of
`querySelector('svg')` on its parse (`none` when no svg root exists). -/
structure Markup where
  raw : String
  root : Option SvgRootEl

/-! ### DimensionResolver: `SvgConverter.getDimensions` (lines 89-106) -/

/-- JS `a || b` on strings (empty string is falsy). -/
def jsStrOr (a b : String) : String := if a = "" then b else a

/-- JS `a || b` where `a` is a nullable string (`getAttribute` result). -/
def jsNullStrOr (a : Option String) (b : String) : String :=
  match a with
  | none => b
  | some s => jsStrOr s b

/-- `svgEl.getAttribute('width') || svgEl.viewBox.baseVal.width.toString() || '500'`. -/
def widthStr (el : SvgRootEl) : String :=
  jsStrOr (jsNullStrOr el.widthAttr (jsNumToString el.viewBoxW)) "500"

def heightStr (el : SvgRootEl) : String :=
  jsStrOr (jsNullStrOr el.heightAttr (jsNumToString el.viewBoxH)) "500"

/-- `SvgConverter.getDimensions`: `let width = 500; if (svgEl) width = parseFloat(…);
return Math.round(width * scale)`.  `none` models a `NaN` dimension (unparseable
attribute string). -/
def getDimensions (m : Markup) (scale : ℚ) : Option ℤ × Option ℤ :=
  match m.root with
  | none => (some (jsRound (500 * scale)), some (jsRound (500 * scale)))
  | some el =>
      ((jsParseFloat (widthStr el)).map (fun w => jsRound (w * scale)),
       (jsParseFloat (heightStr el)).map (fun h => jsRound (h * scale)))

/-! ### FrameRasterizer pixel model (`captureFrame`, lines 139-147)

Premultiplied-alpha pixels; `compositeOver` is canvas source-over compositing. -/

structure Pixel where
  r : ℚ
  g : ℚ
  b : ℚ
  a : ℚ
deriving DecidableEq

def Canvas : Type := ℕ × ℕ → Pixel

/-- `ctx.clearRect` leaves fully transparent pixels. -/
def clearPixel : Pixel := ⟨0, 0, 0, 0⟩

/-- `ctx.fillStyle = '#ffffff'; ctx.fillRect(…)`: opaque white. -/
def whitePixel : Pixel := ⟨1, 1, 1, 1⟩

def compositeOver (src dst : Pixel) : Pixel :=
  ⟨src.r + dst.r * (1 - src.a), src.g + dst.g * (1 - src.a),
   src.b + dst.b * (1 - src.a), src.a + dst.a * (1 - src.a)⟩

/-- One frame draw (lines 139-146): `clearRect` erases every previous pixel, so the
result never depends on `prev`; if `transparent` is false the cleared canvas is
filled with opaque white before the decoded image is composited over it. -/
def drawFrame (_prev : Canvas) (img : Canvas) (transparent : Bool) : Canvas :=
  fun p => compositeOver (img p) (if transparent then clearPixel else whitePixel)

/-! ### AnimationSeeker (`captureFrame`, lines 108-134) -/

/-- Runtime behaviour of the declarative (SMIL) seek capability
`liveSvg.setCurrentTime`: absent (`typeof … !== 'function'`), working, or
throwing (the `try { … } catch (e) {}` swallows the exception). -/
inductive SmilCap
  | unavailable
  | ok
  | raises
deriving DecidableEq

/-- The declarative clock state after the guarded seek: set only when the
capability exists and does not throw. -/
def seekSmil : SmilCap → ℚ → Option ℚ
  | .unavailable, _ => none
  | .ok, t => some t
  | .raises, _ => none

/-- The serialized seeked fragment (`XMLSerializer.serializeToString(liveSvg)`):
the original fragment's content, the declarative clock (if set), and the injected
CSS override style (`animation-play-state: paused; animation-delay: -t s;
transition: none`), identified by its time. -/
structure SeekedMarkup where
  base : String
  smilTime : Option ℚ
  cssTime : ℚ
deriving DecidableEq

def seekedOf (m : Markup) (cap : SmilCap) (t : ℚ) : SeekedMarkup :=
  ⟨m.raw, seekSmil cap t, t⟩

/-- The converter's mutable render state: the hidden live container's `innerHTML`
and the shared canvas surface. -/
structure CFState where
  container : String
  canvas : Canvas

def initState : CFState := ⟨"", fun _ => clearPixel⟩

/-- Lines 109-134: assign `container.innerHTML = svgString` (discarding whatever a
previous frame left there), look up the root, seek, inject the style, serialize.
The error is the `throw new Error("Invalid SVG structure")` of line 112 (raised
before the `try`/`finally`, so the container is left holding the markup). -/
def seekSerialize (_container : String) (m : Markup) (t : ℚ) (cap : SmilCap) :
    Except String SeekedMarkup × String :=
  match m.root with
  | none => (.error "Invalid SVG structure", m.raw)
  | some _ => (.ok (seekedOf m cap t), m.raw)

/-- `SvgConverter.captureFrame` (lines 108-152): the seek phase of
`seekSerialize` (`innerHTML` assignment, root check, guarded SMIL seek, CSS style
injection, serialization — on a missing root the line-112 throw leaves the
container holding the markup), then `decode`, the browser's SVG-image decoding of
the serialized fragment (`loadImage`; it fails with "Failed to load SVG frame"),
then the draw of lines 139-146.  On the paths that reach the `try` the `finally`
clears the container; on the success path the canvas holds the drawn frame,
returned as the frame's pixel data (`toDataURL`). -/
def captureFrame (decode : SeekedMarkup → Except String Canvas) (cap : SmilCap)
    (st : CFState) (m : Markup) (t : ℚ) (s : ConverterSettings) :
    Except String Canvas × CFState :=
  match m.root with
  | none => (.error "Invalid SVG structure", ⟨m.raw, st.canvas⟩)
  | some _ =>
      match decode (seekedOf m cap t) with
      | .error e => (.error e, ⟨"", st.canvas⟩)
      | .ok img =>
          (.ok (drawFrame st.canvas img s.transparent),
           ⟨"", drawFrame st.canvas img s.transparent⟩)

/-- The state-independent value of a frame capture (the canvas is cleared before
drawing and the container rewritten before parsing, so the first component of
`captureFrame` depends only on these arguments). -/
def frameOutcome (decode : SeekedMarkup → Except String Canvas) (cap : SmilCap)
    (m : Markup) (t : ℚ) (s : ConverterSettings) : Except String Canvas :=
  match m.root with
  | none => .error "Invalid SVG structure"
  | some _ =>
      match decode (seekedOf m cap t) with
      | .error e => .error e
      | .ok img => .ok (drawFrame initState.canvas img s.transparent)

/-! ### SequenceDriver quantities (lines 161-162, 210-211) -/

/-- `const totalFrames = Math.ceil(settings.duration * settings.fps)`. -/
def totalFrames (s : ConverterSettings) : ℤ := ⌈s.duration * s.fps⌉

/-- `const frameDuration = 1 / settings.fps`. -/
def frameDuration (s : ConverterSettings) : ℚ := 1 / s.fps

/-- Frame `i` is captured at `i * frameDuration`. -/
def frameTimestamp (s : ConverterSettings) (i : ℕ) : ℚ := (i : ℚ) * frameDuration s

/-- GIF capture-phase progress: `Math.round((i / totalFrames) * 60)` (line 168). -/
def gifCaptureProgress (s : ConverterSettings) (i : ℕ) : ℤ :=
  jsRound (((i : ℚ) / ((totalFrames s : ℤ) : ℚ)) * 60)

/-- GIF encode-phase progress: `60 + Math.round(p * 40)` (line 178). -/
def gifEncodeProgress (p : ℚ) : ℤ := 60 + jsRound (p * 40)

/-- Video progress: `Math.round((i / totalFrames) * 100)` (line 219). -/
def videoProgressAt (s : ConverterSettings) (i : ℕ) : ℤ :=
  jsRound (((i : ℚ) / ((totalFrames s : ℤ) : ℚ)) * 100)

/-! ### GifEncoder (`generateGif`, lines 154-187) -/

structure Blob where
  mime : String
deriving DecidableEq

/-- Outcome of one `gifshot.createGIF` invocation: the fractions it feeds to
`progressCallback`, and its completion object (`error`/`errorMsg`). -/
structure GifshotResult where
  progress : List ℚ
  error : Bool
  errorMsg : String

/-- Modelled from the spec: the external GIF-assembly capability (gifshot) is not
part of this repository; per §6 ("Output: a single binary blob tagged with the
MIME type corresponding to the chosen format (`image/gif`, …)") and Scenario C, a
successful assembly yields an image resource whose fetched blob has MIME type
`image/gif`. -/
def gifMime : String := "image/gif"

/-- The capture loop of `generateGif` (lines 165-169): frames are pushed in index
order and `onProgress(Math.round((i / totalFrames) * 60))` fires after each.  A
capture failure rejects the whole run (the returned `Except.error`); no retry
exists.  Returns the captured data-URL frames and the emitted progress values. -/
def gifLoop (decode : SeekedMarkup → Except String Canvas) (cap : SmilCap)
    (m : Markup) (s : ConverterSettings) :
    List ℕ → CFState → Except String (List Canvas × List ℤ)
  | [], _ => .ok ([], [])
  | i :: rest, st =>
      (captureFrame decode cap st m (frameTimestamp s i) s).1.bind fun frame =>
        (gifLoop decode cap m s rest
            (captureFrame decode cap st m (frameTimestamp s i) s).2).map
          (fun pr => (frame :: pr.1, gifCaptureProgress s i :: pr.2))

/-- The tail of `generateGif` after all frames are captured (lines 171-186): the
external capability is invoked once, with the complete frame list; on its error
signal the run rejects with the capability's message, otherwise the fetched blob
(MIME `image/gif`) resolves, the encode-phase progress having been remapped by
`60 + Math.round(p * 40)`. -/
def gifFinish (assemble : List Canvas → ℚ → ℤ → GifshotResult)
    (s : ConverterSettings) : List Canvas × List ℤ → Except String (Blob × List ℤ)
  | (frames, capProg) =>
      if (assemble frames (frameDuration s) (totalFrames s)).error then
        .error ("GIF generation failed: "
          ++ (assemble frames (frameDuration s) (totalFrames s)).errorMsg)
      else
        .ok (⟨gifMime⟩,
          capProg ++ (assemble frames (frameDuration s) (totalFrames s)).progress.map
            gifEncodeProgress)

/-- `SvgConverter.generateGif` (lines 154-187).  `gifshotLoad` models
`waitForGifshot` (lazy load, possibly failing); `assemble` is the external
`gifshot.createGIF` capability, invoked once with the complete frame list, the
frame interval and the frame count.  The returned progress list is the full
sequence passed to `onProgress` on a successful run. -/
def generateGif (gifshotLoad : Except String Unit)
    (decode : SeekedMarkup → Except String Canvas) (cap : SmilCap)
    (assemble : List Canvas → ℚ → ℤ → GifshotResult)
    (m : Markup) (s : ConverterSettings) : Except String (Blob × List ℤ) :=
  gifshotLoad.bind fun _ =>
    (gifLoop decode cap m s (List.range (totalFrames s).toNat) initState).bind
      (gifFinish assemble s)

/-! ### VideoEncoder (`generateVideo`, lines 189-224) -/

/-- The ordered codec preference list (line 195). -/
def mimeTypes : List String :=
  ["video/mp4;codecs=h264", "video/mp4", "video/webm;codecs=vp9", "video/webm"]

/-- `mimeTypes.find(m => MediaRecorder.isTypeSupported(m)) || 'video/webm'`. -/
def selectMime (isTypeSupported : String → Bool) : String :=
  (mimeTypes.find? isTypeSupported).getD "video/webm"

/-- The capture loop of `generateVideo` (lines 215-220): each frame is drawn onto
the recorded canvas (the frame itself is discarded), the pacing delay elapses,
then `onProgress(Math.round((i / totalFrames) * 100))` fires. -/
def videoLoop (decode : SeekedMarkup → Except String Canvas) (cap : SmilCap)
    (m : Markup) (s : ConverterSettings) :
    List ℕ → CFState → Except String (List ℤ)
  | [], _ => .ok []
  | i :: rest, st =>
      (captureFrame decode cap st m (frameTimestamp s i) s).1.bind fun _ =>
        (videoLoop decode cap m s rest
            (captureFrame decode cap st m (frameTimestamp s i) s).2).map
          (fun ps => videoProgressAt s i :: ps)

/-- `SvgConverter.generateVideo` (lines 189-224).  The recorder's blob is
assembled from the recorded chunks with `{ type: selectedMime }`; its byte
content (the recorder's internal sampling of the canvas) is outside the model.
A capture failure rejects the whole run and no blob is produced. -/
def generateVideo (decode : SeekedMarkup → Except String Canvas) (cap : SmilCap)
    (isTypeSupported : String → Bool) (m : Markup) (s : ConverterSettings) :
    Except String (Blob × List ℤ) :=
  (videoLoop decode cap m s (List.range (totalFrames s).toNat) initState).map
    (fun prog => (⟨selectMime isTypeSupported⟩, prog))

/-- `SvgConverter.convert` (lines 73-87): resolve dimensions, size the canvas,
then dispatch on the requested format (GIF batch path vs MediaRecorder path). -/
def convert (gifshotLoad : Except String Unit)
    (decode : SeekedMarkup → Except String Canvas) (cap : SmilCap)
    (assemble : List Canvas → ℚ → ℤ → GifshotResult)
    (isTypeSupported : String → Bool)
    (m : Markup) (s : ConverterSettings) : Except String (Blob × List ℤ) :=
  if s.format = ExportFormat.GIF then generateGif gifshotLoad decode cap assemble m s
  else generateVideo decode cap isTypeSupported m s

/-! ### Metadata service (`src/services/geminiService.ts`, `analyzeSvg`) -/

structure SvgAnalysis where
  hasSmil : Bool
  hasCssAnimation : Bool
  viewBox : Option String
  width : ℚ
  height : ℚ
  suggestedDuration : ℚ
deriving DecidableEq

/-- The fields of `JSON.parse(response.text || '{}')` as far as `analyzeSvg` reads
them; `none` models an absent/undefined field.  The response schema types the
booleans, the numbers and the viewBox string; numeric values are otherwise
unconstrained (the schema does not bound them). -/
structure RawAnalysis where
  hasSmil : Option Bool
  hasCssAnimation : Option Bool
  viewBox : Option String
  width : Option ℚ
  height : Option ℚ
  suggestedDuration : Option ℚ

/-- One round-trip to the external model endpoint: either anything in the
`try` threw (network failure, non-JSON text, …) — the `catch` path — or a JSON
object was parsed. -/
inductive ServiceOutcome
  | failure
  | success (r : RawAnalysis)

/-- JS `v || false` on a schema-typed boolean field. -/
def jsBoolOr (v : Option Bool) : Bool :=
  match v with
  | some b => b
  | none => false

/-- JS `v || d` on a schema-typed numeric field: `0` (and an absent field) is
falsy and replaced by the default. -/
def jsNumOr (v : Option ℚ) (d : ℚ) : ℚ :=
  match v with
  | some q => if q = 0 then d else q
  | none => d

/-- JS `v || null` on a schema-typed string field. -/
def jsStrOrNull (v : Option String) : Option String :=
  match v with
  | some str => if str = "" then none else some str
  | none => none

/-- The `catch` fallback record (lines 44-51). -/
def fallbackAnalysis : SvgAnalysis :=
  ⟨false, false, none, 500, 500, 5⟩

/-- `analyzeSvg` (lines 7-53): total in the outcome — the `try`/`catch` means the
caller always receives a record, never an exception. -/
def analyzeSvg : ServiceOutcome → SvgAnalysis
  | .failure => fallbackAnalysis
  | .success r =>
      ⟨jsBoolOr r.hasSmil, jsBoolOr r.hasCssAnimation, jsStrOrNull r.viewBox,
       jsNumOr r.width 500, jsNumOr r.height 500, jsNumOr r.suggestedDuration 5⟩

/-! ### Helper lemmas about the capture pipeline -/

theorem captureFrame_fst (decode : SeekedMarkup → Except String Canvas) (cap : SmilCap)
    (st : CFState) (m : Markup) (t : ℚ) (s : ConverterSettings) :
    (captureFrame decode cap st m t s).1 = frameOutcome decode cap m t s := by
  unfold captureFrame frameOutcome
  cases m.root with
  | none => rfl
  | some el =>
      cases decode (seekedOf m cap t) with
      | error e => rfl
      | ok img => rfl

theorem captureFrame_fst_ok (decode : SeekedMarkup → Except String Canvas) (cap : SmilCap)
    (st : CFState) (m : Markup) (t : ℚ) (s : ConverterSettings) (c : Canvas)
    (h : frameOutcome decode cap m t s = .ok c) :
    (captureFrame decode cap st m t s).1 = .ok c := by
  rw [captureFrame_fst, h]

theorem captureFrame_fst_err (decode : SeekedMarkup → Except String Canvas) (cap : SmilCap)
    (st : CFState) (m : Markup) (t : ℚ) (s : ConverterSettings) (e : String)
    (h : frameOutcome decode cap m t s = .error e) :
    (captureFrame decode cap st m t s).1 = .error e := by
  rw [captureFrame_fst, h]

theorem captureFrame_snd_ok (decode : SeekedMarkup → Except String Canvas) (cap : SmilCap)
    (st : CFState) (m : Markup) (t : ℚ) (s : ConverterSettings) (c : Canvas)
    (h : frameOutcome decode cap m t s = .ok c) :
    (captureFrame decode cap st m t s).2 = ⟨"", c⟩ := by
  unfold captureFrame
  split
  · rename_i hroot
    unfold frameOutcome at h
    rw [hroot] at h
    exact absurd h (by simp)
  · rename_i el hroot
    split
    · rename_i e hdec
      unfold frameOutcome at h
      rw [hroot, hdec] at h
      exact absurd h (by simp)
    · rename_i img hdec
      unfold frameOutcome at h
      rw [hroot, hdec] at h
      have h2 : drawFrame initState.canvas img s.transparent = c := by injection h
      exact congrArg (fun cv => (⟨"", cv⟩ : CFState)) h2

theorem frameOutcome_ok (decode : SeekedMarkup → Except String Canvas) (cap : SmilCap)
    (m : Markup) (t : ℚ) (s : ConverterSettings)
    (hroot : ∃ el, m.root = some el) (hdec : ∀ sm, ∃ c, decode sm = .ok c) :
    ∃ c, frameOutcome decode cap m t s = .ok c := by
  obtain ⟨el, hel⟩ := hroot
  obtain ⟨img, him⟩ := hdec (seekedOf m cap t)
  refine ⟨drawFrame initState.canvas img s.transparent, ?_⟩
  unfold frameOutcome
  rw [hel, him]

theorem gifLoop_cons (decode : SeekedMarkup → Except String Canvas) (cap : SmilCap)
    (m : Markup) (s : ConverterSettings) (i : ℕ) (rest : List ℕ) (st : CFState) :
    gifLoop decode cap m s (i :: rest) st
      = (captureFrame decode cap st m (frameTimestamp s i) s).1.bind fun frame =>
          (gifLoop decode cap m s rest
              (captureFrame decode cap st m (frameTimestamp s i) s).2).map
            (fun pr => (frame :: pr.1, gifCaptureProgress s i :: pr.2)) := rfl

theorem videoLoop_cons (decode : SeekedMarkup → Except String Canvas) (cap : SmilCap)
    (m : Markup) (s : ConverterSettings) (i : ℕ) (rest : List ℕ) (st : CFState) :
    videoLoop decode cap m s (i :: rest) st
      = (captureFrame decode cap st m (frameTimestamp s i) s).1.bind fun _ =>
          (videoLoop decode cap m s rest
              (captureFrame decode cap st m (frameTimestamp s i) s).2).map
            (fun ps => videoProgressAt s i :: ps) := rfl

theorem gifLoop_ok (decode : SeekedMarkup → Except String Canvas) (cap : SmilCap)
    (m : Markup) (s : ConverterSettings) :
    ∀ (idxs : List ℕ) (st : CFState),
      (∀ i ∈ idxs, ∃ c, frameOutcome decode cap m (frameTimestamp s i) s = .ok c) →
      ∃ frames, gifLoop decode cap m s idxs st
          = .ok (frames, idxs.map (gifCaptureProgress s)) ∧ frames.length = idxs.length := by
  intro idxs
  induction idxs with
  | nil => intro st _; exact ⟨[], rfl, rfl⟩
  | cons i rest ih =>
      intro st hall
      obtain ⟨c, hc⟩ := hall i (List.mem_cons_self i rest)
      obtain ⟨frames, hrec, hlen⟩ := ih ⟨"", c⟩ (fun j hj => hall j (List.mem_cons_of_mem i hj))
      refine ⟨c :: frames, ?_, by simp [hlen]⟩
      rw [gifLoop_cons, captureFrame_fst_ok decode cap st m (frameTimestamp s i) s c hc,
        captureFrame_snd_ok decode cap st m (frameTimestamp s i) s c hc, hrec]
      rfl

theorem videoLoop_ok (decode : SeekedMarkup → Except String Canvas) (cap : SmilCap)
    (m : Markup) (s : ConverterSettings) :
    ∀ (idxs : List ℕ) (st : CFState),
      (∀ i ∈ idxs, ∃ c, frameOutcome decode cap m (frameTimestamp s i) s = .ok c) →
      videoLoop decode cap m s idxs st = .ok (idxs.map (videoProgressAt s)) := by
  intro idxs
  induction idxs with
  | nil => intro st _; rfl
  | cons i rest ih =>
      intro st hall
      obtain ⟨c, hc⟩ := hall i (List.mem_cons_self i rest)
      rw [videoLoop_cons, captureFrame_fst_ok decode cap st m (frameTimestamp s i) s c hc,
        captureFrame_snd_ok decode cap st m (frameTimestamp s i) s c hc,
        ih ⟨"", c⟩ (fun j hj => hall j (List.mem_cons_of_mem i hj))]
      rfl

theorem gifLoop_err (decode : SeekedMarkup → Except String Canvas) (cap : SmilCap)
    (m : Markup) (s : ConverterSettings) (e : String) (j : ℕ) (l2 : List ℕ)
    (hj : frameOutcome decode cap m (frameTimestamp s j) s = .error e) :
    ∀ (l1 : List ℕ) (st : CFState),
      (∀ i ∈ l1, ∃ c, frameOutcome decode cap m (frameTimestamp s i) s = .ok c) →
      gifLoop decode cap m s (l1 ++ j :: l2) st = .error e := by
  intro l1
  induction l1 with
  | nil =>
      intro st _
      show gifLoop decode cap m s (j :: l2) st = .error e
      rw [gifLoop_cons, captureFrame_fst_err decode cap st m (frameTimestamp s j) s e hj]
      rfl
  | cons i rest ih =>
      intro st hall
      obtain ⟨c, hc⟩ := hall i (List.mem_cons_self i rest)
      show gifLoop decode cap m s (i :: (rest ++ j :: l2)) st = .error e
      rw [gifLoop_cons, captureFrame_fst_ok decode cap st m (frameTimestamp s i) s c hc,
        captureFrame_snd_ok decode cap st m (frameTimestamp s i) s c hc,
        ih ⟨"", c⟩ (fun x hx => hall x (List.mem_cons_of_mem i hx))]
      rfl

theorem videoLoop_err (decode : SeekedMarkup → Except String Canvas) (cap : SmilCap)
    (m : Markup) (s : ConverterSettings) (e : String) (j : ℕ) (l2 : List ℕ)
    (hj : frameOutcome decode cap m (frameTimestamp s j) s = .error e) :
    ∀ (l1 : List ℕ) (st : CFState),
      (∀ i ∈ l1, ∃ c, frameOutcome decode cap m (frameTimestamp s i) s = .ok c) →
      videoLoop decode cap m s (l1 ++ j :: l2) st = .error e := by
  intro l1
  induction l1 with
  | nil =>
      intro st _
      show videoLoop decode cap m s (j :: l2) st = .error e
      rw [videoLoop_cons, captureFrame_fst_err decode cap st m (frameTimestamp s j) s e hj]
      rfl
  | cons i rest ih =>
      intro st hall
      obtain ⟨c, hc⟩ := hall i (List.mem_cons_self i rest)
      show videoLoop decode cap m s (i :: (rest ++ j :: l2)) st = .error e
      rw [videoLoop_cons, captureFrame_fst_ok decode cap st m (frameTimestamp s i) s c hc,
        captureFrame_snd_ok decode cap st m (frameTimestamp s i) s c hc,
        ih ⟨"", c⟩ (fun x hx => hall x (List.mem_cons_of_mem i hx))]
      rfl

/-! ### Rounding and progress-sequence helpers -/

theorem jsRound_mono {q r : ℚ} (h : q ≤ r) : jsRound q ≤ jsRound r :=
  Int.floor_le_floor (by linarith)

theorem jsRound_nonneg {q : ℚ} (h : 0 ≤ q) : 0 ≤ jsRound q := by
  unfold jsRound
  rw [Int.le_floor]
  push_cast
  linarith

theorem jsRound_le_of_le {q : ℚ} {B : ℤ} (h : q ≤ (B : ℚ)) : jsRound q ≤ B := by
  unfold jsRound
  have h2 : ⌊(B : ℚ) + 1/2⌋ = B := by
    rw [Int.floor_int_add]
    norm_num
  calc ⌊q + 1/2⌋ ≤ ⌊(B : ℚ) + 1/2⌋ := Int.floor_le_floor (by linarith)
    _ = B := h2

theorem chain_le_map_range (f : ℕ → ℤ) (hf : ∀ i, f i ≤ f (i + 1)) (n : ℕ) :
    List.Chain' (fun a b => a ≤ b) ((List.range n).map f) := by
  rw [List.chain'_map]
  cases n with
  | zero => simp
  | succ k =>
      rw [List.chain'_range_succ]
      intro i _
      exact hf i

theorem getLast?_map_range (f : ℕ → ℤ) (k : ℕ) :
    (((List.range (k + 1)).map f)).getLast? = some (f k) := by
  rw [List.range_succ]
  simp

/-! ### Concrete fixtures used to instantiate the theorems -/

def blankCanvas : Canvas := fun _ => clearPixel

/-- An image decoder that always succeeds (every frame loads). -/
def okDecode : SeekedMarkup → Except String Canvas := fun _ => .ok blankCanvas

/-- An image decoder that always fails, as `loadImage` does on a decode error. -/
def failDecode : SeekedMarkup → Except String Canvas :=
  fun _ => .error "Failed to load SVG frame"

/-- Root element of `<svg width="400" height="400">`. -/
def el400 : SvgRootEl := ⟨some "400", some "400", 0, 0⟩

def mSvg : Markup := ⟨"<svg width=400 height=400></svg>", some el400⟩

/-- Root element of a bare `<svg>`: no width/height attributes, no viewBox
(the DOM reports `viewBox.baseVal.width = 0`). -/
def elBare : SvgRootEl := ⟨none, none, 0, 0⟩

def mBare : Markup := ⟨"<svg></svg>", some elBare⟩

/-- Markup with no `<svg>` root at all. -/
def mNoRoot : Markup := ⟨"<div></div>", none⟩

def sVid1 : ConverterSettings := ⟨1, 1, 1, 1, .WEBM, false⟩

def sGif2 : ConverterSettings := ⟨1, 2, 1, 1, .GIF, false⟩

def allSupported : String → Bool := fun _ => true

def noneSupported : String → Bool := fun _ => false

/-- A GIF-assembly capability that reports one full-progress tick and succeeds. -/
def trivialAssemble : List Canvas → ℚ → ℤ → GifshotResult := fun _ _ _ => ⟨[1], false, ""⟩

theorem totalFrames_sVid1 : totalFrames sVid1 = 1 := by
  norm_num [totalFrames, sVid1]

theorem totalFrames_sGif2 : totalFrames sGif2 = 2 := by
  norm_num [totalFrames, sGif2]

theorem natToString_ne_empty (n : ℕ) : natToString n ≠ "" := by
  unfold natToString
  by_cases hn : n = 0
  · subst hn; decide
  · rw [if_neg hn]
    intro h
    have hdata : ((natDigits n).reverse.map digitChar) = [] := congrArg String.data h
    have hrev : (natDigits n).reverse = [] := List.map_eq_nil_iff.mp hdata
    have hnil : natDigits n = [] := by simpa using congrArg List.reverse hrev
    exact natDigits_ne_nil n hn hnil

theorem jsParseFloat_400 : jsParseFloat "400" = some (400 : ℚ) := by
  have h := jsParseFloat_of_digits "400" [4, 0, 0] (by decide) (by decide) (by decide)
  rw [h, show digitsToNat [4, 0, 0] = 400 from by decide]
  norm_num

theorem jsParseFloat_zeroStr : jsParseFloat "0" = some (0 : ℚ) := by
  have h := jsParseFloat_natToString 0
  rw [show natToString 0 = "0" from by decide] at h
  simpa using h

/-! ## Claim C1 -/

/-- C1: for every settings record with `fps > 0` and `duration > 0`, the frame
count of both export paths is `totalFrames = ⌈fps·duration⌉` (at least 1), the
frame with 0-based index `i` is seeked at `i * (1/fps)`, which equals `i / fps`
exactly, and on a capture-clean run the GIF loop collects exactly `totalFrames`
frames and the video loop performs exactly `totalFrames` captures. -/
theorem c1_frame_count_and_timestamps (s : ConverterSettings)
    (hf : 0 < s.fps) (hd : 0 < s.duration) :
    totalFrames s = ⌈s.fps * s.duration⌉
    ∧ 1 ≤ totalFrames s
    ∧ (∀ i : ℕ, frameTimestamp s i = (i : ℚ) / s.fps)
    ∧ (∀ (decode : SeekedMarkup → Except String Canvas) (cap : SmilCap) (m : Markup),
        (∀ sm, ∃ c, decode sm = .ok c) → (∃ el, m.root = some el) →
        (∃ frames capProg,
            gifLoop decode cap m s (List.range (totalFrames s).toNat) initState
              = .ok (frames, capProg) ∧ frames.length = (totalFrames s).toNat)
        ∧ (∃ vprog,
            videoLoop decode cap m s (List.range (totalFrames s).toNat) initState
              = .ok vprog ∧ vprog.length = (totalFrames s).toNat)) := by
  refine ⟨by rw [totalFrames, mul_comm], ?_, ?_, ?_⟩
  · have hpos : (0 : ℚ) < s.duration * s.fps := mul_pos hd hf
    have := Int.ceil_pos.mpr hpos
    unfold totalFrames
    omega
  · intro i
    rw [frameTimestamp, frameDuration, mul_one_div]
  · intro decode cap m hdec hroot
    have hall : ∀ i ∈ List.range (totalFrames s).toNat,
        ∃ c, frameOutcome decode cap m (frameTimestamp s i) s = .ok c :=
      fun i _ => frameOutcome_ok decode cap m _ s hroot hdec
    constructor
    · obtain ⟨frames, heq, hlen⟩ := gifLoop_ok decode cap m s _ initState hall
      exact ⟨frames, _, heq, by simpa using hlen⟩
    · exact ⟨_, videoLoop_ok decode cap m s _ initState hall, by simp⟩

theorem c1_witness :
    0 < sGif2.fps ∧ 0 < sGif2.duration ∧ 1 ≤ totalFrames sGif2 :=
  ⟨by norm_num [sGif2], by norm_num [sGif2],
    (c1_frame_count_and_timestamps sGif2 (by norm_num [sGif2]) (by norm_num [sGif2])).2.1⟩

/-! ## Claim C3 -/

/-- C3 counterexample: for a markup whose root `<svg>` has neither dimension
attributes nor a viewBox, the claim's "else the default 500" predicts a 500×500
canvas at scale 1.  The code stringifies the DOM's viewBox width 0 to `"0"`,
which is truthy, so the `|| '500'` fallback never fires: the resolved canvas is
0×0, not 500×500. -/
theorem c3_counterexample :
    getDimensions mBare 1 = (some 0, some 0)
    ∧ getDimensions mBare 1 ≠ (some 500, some 500) := by
  have hnum : jsNumToString (0 : ℚ) = "0" := by
    rw [show (0 : ℚ) = ((0 : ℕ) : ℚ) by norm_num, jsNumToString_natCast]
    decide
  have hw : widthStr elBare = "0" := by
    show jsStrOr (jsNumToString (0 : ℚ)) "500" = "0"
    rw [hnum]
    decide
  have hh : heightStr elBare = "0" := by
    show jsStrOr (jsNumToString (0 : ℚ)) "500" = "0"
    rw [hnum]
    decide
  have hmain : getDimensions mBare 1 = (some 0, some 0) := by
    show ((jsParseFloat (widthStr elBare)).map (fun w => jsRound (w * 1)),
          (jsParseFloat (heightStr elBare)).map (fun h => jsRound (h * 1)))
        = (some 0, some 0)
    rw [hw, hh, jsParseFloat_zeroStr]
    norm_num [jsRound]
  refine ⟨hmain, ?_⟩
  rw [hmain]
  decide

/-- C3 amended: the 500×500 default (scaled, rounded) applies exactly when the
markup has no `<svg>` root.  When a root exists, the width is `parseFloat` of the
explicit width attribute when that attribute is present and non-empty; otherwise
it is the (stringified, re-parsed) viewBox width — which the DOM reports as `0`
when no viewBox attribute exists — and the `'500'` literal is unreachable.
Scenario A (`<svg width="400" height="400">`, scale 1.5 → 600×600) holds. -/
theorem c3_amended_dimensions :
    (∀ (m : Markup) (scale : ℚ), m.root = none →
        getDimensions m scale
          = (some (jsRound (500 * scale)), some (jsRound (500 * scale))))
    ∧ (∀ (raw str : String) (el : SvgRootEl) (scale : ℚ),
        el.widthAttr = some str → str ≠ "" →
        (getDimensions ⟨raw, some el⟩ scale).1
          = (jsParseFloat str).map (fun w => jsRound (w * scale)))
    ∧ (∀ (raw str : String) (el : SvgRootEl) (scale : ℚ),
        el.heightAttr = some str → str ≠ "" →
        (getDimensions ⟨raw, some el⟩ scale).2
          = (jsParseFloat str).map (fun h => jsRound (h * scale)))
    ∧ (∀ (raw : String) (el : SvgRootEl) (scale : ℚ) (n : ℕ),
        (el.widthAttr = none ∨ el.widthAttr = some "") → el.viewBoxW = (n : ℚ) →
        (getDimensions ⟨raw, some el⟩ scale).1 = some (jsRound ((n : ℚ) * scale)))
    ∧ (∀ (raw : String) (el : SvgRootEl) (scale : ℚ) (n : ℕ),
        (el.heightAttr = none ∨ el.heightAttr = some "") → el.viewBoxH = (n : ℚ) →
        (getDimensions ⟨raw, some el⟩ scale).2 = some (jsRound ((n : ℚ) * scale)))
    ∧ (∀ raw : String,
        getDimensions ⟨raw, some el400⟩ (3/2) = (some 600, some 600)) := by
  refine ⟨?_, ?_, ?_, ?_, ?_, ?_⟩
  · intro m scale hroot
    unfold getDimensions
    rw [hroot]
  · intro raw str el scale hattr hstr
    have hws : widthStr el = str := by
      unfold widthStr jsNullStrOr jsStrOr
      rw [hattr]
      simp [hstr]
    show (jsParseFloat (widthStr el)).map (fun w => jsRound (w * scale))
        = (jsParseFloat str).map (fun w => jsRound (w * scale))
    rw [hws]
  · intro raw str el scale hattr hstr
    have hhs : heightStr el = str := by
      unfold heightStr jsNullStrOr jsStrOr
      rw [hattr]
      simp [hstr]
    show (jsParseFloat (heightStr el)).map (fun h => jsRound (h * scale))
        = (jsParseFloat str).map (fun h => jsRound (h * scale))
    rw [hhs]
  · intro raw el scale n hattr hvb
    have hws : widthStr el = natToString n := by
      unfold widthStr jsNullStrOr jsStrOr
      rcases hattr with h | h <;> rw [h, hvb, jsNumToString_natCast] <;>
        simp [natToString_ne_empty n]
    show (jsParseFloat (widthStr el)).map (fun w => jsRound (w * scale))
        = some (jsRound ((n : ℚ) * scale))
    rw [hws, jsParseFloat_natToString]
    rfl
  · intro raw el scale n hattr hvb
    have hhs : heightStr el = natToString n := by
      unfold heightStr jsNullStrOr jsStrOr
      rcases hattr with h | h <;> rw [h, hvb, jsNumToString_natCast] <;>
        simp [natToString_ne_empty n]
    show (jsParseFloat (heightStr el)).map (fun h => jsRound (h * scale))
        = some (jsRound ((n : ℚ) * scale))
    rw [hhs, jsParseFloat_natToString]
    rfl
  · intro raw
    have hws : widthStr el400 = "400" := by decide
    have hhs : heightStr el400 = "400" := by decide
    show ((jsParseFloat (widthStr el400)).map (fun w => jsRound (w * (3/2))),
          (jsParseFloat (heightStr el400)).map (fun h => jsRound (h * (3/2))))
        = (some 600, some 600)
    rw [hws, hhs, jsParseFloat_400]
    norm_num [jsRound]

theorem c3_witness :
    getDimensions ⟨"x", some el400⟩ (3/2) = (some 600, some 600)
    ∧ getDimensions mNoRoot 1 = (some (jsRound (500 * 1)), some (jsRound (500 * 1))) :=
  ⟨c3_amended_dimensions.2.2.2.2.2 "x", c3_amended_dimensions.1 mNoRoot 1 rfl⟩

/-! ## Claim C7 -/

theorem compositeOver_clear (x : Pixel) : compositeOver x clearPixel = x := by
  cases x with
  | mk r g b a =>
      unfold compositeOver clearPixel
      simp only [Pixel.mk.injEq]
      refine ⟨by ring, by ring, by ring, by ring⟩

/-- C7: each frame draw clears the canvas first (the result is independent of all
previous canvas content); with `transparent = true` there is no background fill,
so every source pixel — its alpha included — is preserved verbatim; with
`transparent = false` the canvas is filled with opaque white (`#ffffff`) before
compositing, the output is fully opaque everywhere, and a fully transparent
source pixel shows the white background. -/
theorem c7_background_fill (prev prev2 img : Canvas) (transparent : Bool)
    (p : ℕ × ℕ) (h : img p = clearPixel) :
    drawFrame prev img transparent = drawFrame prev2 img transparent
    ∧ (∀ q, drawFrame prev img true q = img q)
    ∧ (∀ q, (drawFrame prev img false q).a = 1)
    ∧ drawFrame prev img false p = whitePixel := by
  refine ⟨rfl, ?_, ?_, ?_⟩
  · intro q
    exact compositeOver_clear (img q)
  · intro q
    show (img q).a + (1 : ℚ) * (1 - (img q).a) = 1
    ring
  · show compositeOver (img p) whitePixel = whitePixel
    rw [h]
    unfold compositeOver clearPixel whitePixel
    simp only [Pixel.mk.injEq]
    refine ⟨by ring, by ring, by ring, by ring⟩

theorem c7_witness :
    drawFrame blankCanvas blankCanvas false (0, 0) = whitePixel :=
  (c7_background_fill blankCanvas blankCanvas blankCanvas false (0, 0) rfl).2.2.2

/-! ## Claim C8 -/

/-- C8: a declarative (SMIL) seek that raises is caught and ignored — the frame
is processed exactly as when the capability is unavailable, i.e. using only the
injected CSS-time override (the seeked fragment carries no declarative clock),
and the seek failure never changes the frame's outcome or introduces an error. -/
theorem c8_seek_failure_recoverable (decode : SeekedMarkup → Except String Canvas)
    (st : CFState) (m : Markup) (t : ℚ) (s : ConverterSettings) :
    captureFrame decode SmilCap.raises st m t s
      = captureFrame decode SmilCap.unavailable st m t s
    ∧ seekedOf m SmilCap.raises t = ⟨m.raw, none, t⟩
    ∧ seekSerialize st.container m t SmilCap.raises
        = seekSerialize st.container m t SmilCap.unavailable :=
  ⟨rfl, rfl, rfl⟩

/-! ## Claim C9 -/

/-- C9: seeking is deterministic and isolated.  The serialized seeked fragment
produced for `(m, t)` does not depend on what a previous frame left in the live
container; the frame produced by `captureFrame` does not depend on the incoming
render state; a capture at any other time `t2` in between does not change the
result at `t`; and re-running the seek on its own output state reproduces the
identical seeked markup, byte for byte. -/
theorem c9_seek_deterministic (decode : SeekedMarkup → Except String Canvas)
    (cap : SmilCap) (st1 st2 : CFState) (c1 c2 : String) (m : Markup)
    (t t2 : ℚ) (s : ConverterSettings) :
    (seekSerialize c1 m t cap).1 = (seekSerialize c2 m t cap).1
    ∧ (captureFrame decode cap st1 m t s).1 = (captureFrame decode cap st2 m t s).1
    ∧ (captureFrame decode cap ((captureFrame decode cap st1 m t2 s).2) m t s).1
        = (captureFrame decode cap st1 m t s).1
    ∧ (seekSerialize ((seekSerialize c1 m t cap).2) m t cap).1
        = (seekSerialize c1 m t cap).1 := by
  refine ⟨?_, ?_, ?_, ?_⟩
  · unfold seekSerialize
    cases m.root <;> rfl
  · rw [captureFrame_fst, captureFrame_fst]
  · rw [captureFrame_fst, captureFrame_fst]
  · unfold seekSerialize
    cases m.root <;> rfl

/-! ## Claim C10 -/

/-- A reply in which the service reports a negative width. -/
def rawNeg : RawAnalysis := ⟨none, none, none, some (-5), none, none⟩

/-- A reply in which the service reports zeroes and an empty viewBox. -/
def rawZero : RawAnalysis := ⟨some false, none, some "", some 0, some 0, some 0⟩

/-- C10 counterexample: a successfully parsed reply with `width: -5` passes the
truthiness check (`-5` is truthy), so the returned hint's width is `-5` — the
claim's "numeric fields are always positive" is false. -/
theorem c10_counterexample :
    (analyzeSvg (ServiceOutcome.success rawNeg)).width = -5
    ∧ ¬(0 < (analyzeSvg (ServiceOutcome.success rawNeg)).width) := by
  have h : (analyzeSvg (ServiceOutcome.success rawNeg)).width = -5 := by
    norm_num [analyzeSvg, rawNeg, jsNumOr]
  exact ⟨h, by rw [h]; norm_num⟩

theorem jsNumOr_ne_zero (v : Option ℚ) (d : ℚ) (hd : d ≠ 0) : jsNumOr v d ≠ 0 := by
  cases v with
  | none => simpa [jsNumOr] using hd
  | some q =>
      by_cases hq : q = 0
      · simp [jsNumOr, hq, hd]
      · simp [jsNumOr, hq]

/-- C10 amended: `analyzeSvg` is total (never throws): every service failure
yields the fallback record, every falsy field of a parsed reply is replaced by
its default (`false`, `null`, 500, 500, 5), and in particular a reported 0 is
silently converted to the default — so the numeric fields are never 0.  They
are however not always positive: negative reported values pass through
(see the counterexample). -/
theorem c10_amended_defaults :
    analyzeSvg ServiceOutcome.failure = fallbackAnalysis
    ∧ (∀ o, (analyzeSvg o).width ≠ 0 ∧ (analyzeSvg o).height ≠ 0
        ∧ (analyzeSvg o).suggestedDuration ≠ 0)
    ∧ (∀ r : RawAnalysis, r.width = some 0 → (analyzeSvg (.success r)).width = 500)
    ∧ (∀ r : RawAnalysis, r.height = some 0 → (analyzeSvg (.success r)).height = 500)
    ∧ (∀ r : RawAnalysis, r.suggestedDuration = some 0 →
        (analyzeSvg (.success r)).suggestedDuration = 5)
    ∧ (∀ r : RawAnalysis, r.hasSmil = none → (analyzeSvg (.success r)).hasSmil = false)
    ∧ (∀ r : RawAnalysis, r.viewBox = some "" → (analyzeSvg (.success r)).viewBox = none) := by
  refine ⟨rfl, ?_, ?_, ?_, ?_, ?_, ?_⟩
  · intro o
    cases o with
    | failure =>
        refine ⟨?_, ?_, ?_⟩ <;> norm_num [analyzeSvg, fallbackAnalysis]
    | success r =>
        exact ⟨jsNumOr_ne_zero r.width 500 (by norm_num),
          jsNumOr_ne_zero r.height 500 (by norm_num),
          jsNumOr_ne_zero r.suggestedDuration 5 (by norm_num)⟩
  · intro r h
    simp [analyzeSvg, jsNumOr, h]
  · intro r h
    simp [analyzeSvg, jsNumOr, h]
  · intro r h
    simp [analyzeSvg, jsNumOr, h]
  · intro r h
    simp [analyzeSvg, jsBoolOr, h]
  · intro r h
    simp [analyzeSvg, jsStrOrNull, h]

theorem c10_witness :
    (analyzeSvg (ServiceOutcome.success rawZero)).width = 500 :=
  c10_amended_defaults.2.2.1 rawZero rfl

/-! ### Progress bounds -/

theorem gifCaptureProgress_nonneg (s : ConverterSettings) (hN : 0 < totalFrames s)
    (i : ℕ) : 0 ≤ gifCaptureProgress s i := by
  unfold gifCaptureProgress
  apply jsRound_nonneg
  have hNq : (0 : ℚ) < ((totalFrames s : ℤ) : ℚ) := by exact_mod_cast hN
  exact mul_nonneg (div_nonneg (Nat.cast_nonneg i) (le_of_lt hNq)) (by norm_num)

theorem gifCaptureProgress_le60 (s : ConverterSettings) (hN : 0 < totalFrames s)
    (i : ℕ) (hi : i < (totalFrames s).toNat) : gifCaptureProgress s i ≤ 60 := by
  unfold gifCaptureProgress
  apply jsRound_le_of_le
  have hNq : (0 : ℚ) < ((totalFrames s : ℤ) : ℚ) := by exact_mod_cast hN
  have hiq : (i : ℚ) ≤ ((totalFrames s : ℤ) : ℚ) := by
    have h2 : (i : ℤ) < totalFrames s := Int.lt_toNat.mp hi
    exact_mod_cast le_of_lt h2
  have h1 : (i : ℚ) / ((totalFrames s : ℤ) : ℚ) ≤ 1 := (div_le_one hNq).mpr hiq
  calc (i : ℚ) / ((totalFrames s : ℤ) : ℚ) * 60 ≤ 1 * 60 :=
        mul_le_mul_of_nonneg_right h1 (by norm_num)
    _ = ((60 : ℤ) : ℚ) := by norm_num

theorem gifCaptureProgress_mono (s : ConverterSettings) (hN : 0 < totalFrames s)
    (i : ℕ) : gifCaptureProgress s i ≤ gifCaptureProgress s (i + 1) := by
  unfold gifCaptureProgress
  apply jsRound_mono
  have hNq : (0 : ℚ) < ((totalFrames s : ℤ) : ℚ) := by exact_mod_cast hN
  have h1 : (i : ℚ) / ((totalFrames s : ℤ) : ℚ)
      ≤ ((i + 1 : ℕ) : ℚ) / ((totalFrames s : ℤ) : ℚ) := by
    gcongr
    exact_mod_cast Nat.le_succ i
  exact mul_le_mul_of_nonneg_right h1 (by norm_num)

theorem videoProgressAt_nonneg (s : ConverterSettings) (hN : 0 < totalFrames s)
    (i : ℕ) : 0 ≤ videoProgressAt s i := by
  unfold videoProgressAt
  apply jsRound_nonneg
  have hNq : (0 : ℚ) < ((totalFrames s : ℤ) : ℚ) := by exact_mod_cast hN
  exact mul_nonneg (div_nonneg (Nat.cast_nonneg i) (le_of_lt hNq)) (by norm_num)

theorem videoProgressAt_le100 (s : ConverterSettings) (hN : 0 < totalFrames s)
    (i : ℕ) (hi : i < (totalFrames s).toNat) : videoProgressAt s i ≤ 100 := by
  unfold videoProgressAt
  apply jsRound_le_of_le
  have hNq : (0 : ℚ) < ((totalFrames s : ℤ) : ℚ) := by exact_mod_cast hN
  have hiq : (i : ℚ) ≤ ((totalFrames s : ℤ) : ℚ) := by
    have h2 : (i : ℤ) < totalFrames s := Int.lt_toNat.mp hi
    exact_mod_cast le_of_lt h2
  have h1 : (i : ℚ) / ((totalFrames s : ℤ) : ℚ) ≤ 1 := (div_le_one hNq).mpr hiq
  calc (i : ℚ) / ((totalFrames s : ℤ) : ℚ) * 100 ≤ 1 * 100 :=
        mul_le_mul_of_nonneg_right h1 (by norm_num)
    _ = ((100 : ℤ) : ℚ) := by norm_num

theorem videoProgressAt_mono (s : ConverterSettings) (hN : 0 < totalFrames s)
    (i : ℕ) : videoProgressAt s i ≤ videoProgressAt s (i + 1) := by
  unfold videoProgressAt
  apply jsRound_mono
  have hNq : (0 : ℚ) < ((totalFrames s : ℤ) : ℚ) := by exact_mod_cast hN
  have h1 : (i : ℚ) / ((totalFrames s : ℤ) : ℚ)
      ≤ ((i + 1 : ℕ) : ℚ) / ((totalFrames s : ℤ) : ℚ) := by
    gcongr
    exact_mod_cast Nat.le_succ i
  exact mul_le_mul_of_nonneg_right h1 (by norm_num)

theorem gifEncodeProgress_ge (p : ℚ) (hp : 0 ≤ p) : 60 ≤ gifEncodeProgress p := by
  unfold gifEncodeProgress
  have := jsRound_nonneg (mul_nonneg hp (by norm_num : (0 : ℚ) ≤ 40))
  omega

theorem gifEncodeProgress_le (p : ℚ) (hp : p ≤ 1) : gifEncodeProgress p ≤ 100 := by
  unfold gifEncodeProgress
  have h40 : p * 40 ≤ ((40 : ℤ) : ℚ) := by push_cast; nlinarith
  have := jsRound_le_of_le h40
  omega

theorem gifEncodeProgress_mono {p q : ℚ} (hpq : p ≤ q) :
    gifEncodeProgress p ≤ gifEncodeProgress q := by
  unfold gifEncodeProgress
  have := jsRound_mono (mul_le_mul_of_nonneg_right hpq (by norm_num : (0 : ℚ) ≤ 40))
  omega

theorem gifEncodeProgress_one : gifEncodeProgress 1 = 100 := by
  unfold gifEncodeProgress jsRound
  norm_num

/-! ## Claim C4 -/

/-- A fully evaluated one-frame video capture loop on the reference markup. -/
theorem videoLoop_mSvg_sVid1 (decode : SeekedMarkup → Except String Canvas)
    (cap : SmilCap) (hdec : ∀ sm, ∃ c, decode sm = .ok c) :
    videoLoop decode cap mSvg sVid1 (List.range (totalFrames sVid1).toNat) initState
      = .ok [0] := by
  have hv0 : videoProgressAt sVid1 0 = 0 := by
    unfold videoProgressAt
    rw [totalFrames_sVid1]
    norm_num [jsRound]
  rw [show (totalFrames sVid1).toNat = 1 by rw [totalFrames_sVid1]; rfl,
    show List.range 1 = [0] from rfl,
    videoLoop_ok decode cap mSvg sVid1 [0] initState
      (fun i _ => frameOutcome_ok decode cap mSvg _ sVid1 ⟨el400, rfl⟩ hdec),
    show ([0] : List ℕ).map (videoProgressAt sVid1) = [videoProgressAt sVid1 0] from rfl,
    hv0]

/-- C4 counterexample: on a runtime where every codec probe succeeds, an export
requested with `format = WEBM` runs the MediaRecorder path, which ignores
`settings.format` when selecting the recording MIME: the finalized blob is
tagged `video/mp4;codecs=h264`, not the `video/webm` the claim's "MIME type
corresponding to the chosen output format" requires. -/
theorem c4_counterexample :
    sVid1.format = ExportFormat.WEBM
    ∧ convert (.ok ()) okDecode SmilCap.ok trivialAssemble allSupported mSvg sVid1
        = .ok (⟨"video/mp4;codecs=h264"⟩, [0])
    ∧ ("video/mp4;codecs=h264" : String) ≠ "video/webm" := by
  refine ⟨rfl, ?_, by decide⟩
  show generateVideo okDecode SmilCap.ok allSupported mSvg sVid1
      = .ok (⟨"video/mp4;codecs=h264"⟩, [0])
  unfold generateVideo
  rw [videoLoop_mSvg_sVid1 okDecode SmilCap.ok (fun _ => ⟨blankCanvas, rfl⟩)]
  rfl

/-- C4 amended: the VideoEncoder selects the first entry of the ordered
preference list the runtime reports as supported, with `video/webm` as the
guaranteed fallback when nothing is supported — in which case the run still
succeeds without raising.  The finalized blob is tagged with that *selected
recorder MIME string* (codec parameters included), independently of
`settings.format`. -/
theorem c4_amended_codec_selection :
    (∀ sup : String → Bool,
        selectMime sup
          = (if sup "video/mp4;codecs=h264" then "video/mp4;codecs=h264"
             else if sup "video/mp4" then "video/mp4"
             else if sup "video/webm;codecs=vp9" then "video/webm;codecs=vp9"
             else if sup "video/webm" then "video/webm"
             else "video/webm"))
    ∧ (∀ (decode : SeekedMarkup → Except String Canvas) (cap : SmilCap)
        (m : Markup) (s : ConverterSettings),
        (∃ el, m.root = some el) → (∀ sm, ∃ c, decode sm = .ok c) →
        generateVideo decode cap noneSupported m s
          = .ok (⟨"video/webm"⟩, (List.range (totalFrames s).toNat).map (videoProgressAt s)))
    ∧ (∀ (decode : SeekedMarkup → Except String Canvas) (cap : SmilCap)
        (sup : String → Bool) (m : Markup) (s : ConverterSettings) (prog : List ℤ),
        videoLoop decode cap m s (List.range (totalFrames s).toNat) initState = .ok prog →
        generateVideo decode cap sup m s = .ok (⟨selectMime sup⟩, prog)) := by
  refine ⟨?_, ?_, ?_⟩
  · intro sup
    unfold selectMime mimeTypes
    cases h1 : sup "video/mp4;codecs=h264" <;> cases h2 : sup "video/mp4" <;>
      cases h3 : sup "video/webm;codecs=vp9" <;> cases h4 : sup "video/webm" <;>
        simp [List.find?, h1, h2, h3, h4]
  · intro decode cap m s hroot hdec
    unfold generateVideo
    rw [videoLoop_ok decode cap m s _ initState
      (fun i _ => frameOutcome_ok decode cap m _ s hroot hdec)]
    rfl
  · intro decode cap sup m s prog hloop
    unfold generateVideo
    rw [hloop]
    rfl

theorem c4_witness :
    generateVideo okDecode SmilCap.ok noneSupported mSvg sVid1
      = .ok (⟨"video/webm"⟩,
          (List.range (totalFrames sVid1).toNat).map (videoProgressAt sVid1)) :=
  c4_amended_codec_selection.2.1 okDecode SmilCap.ok mSvg sVid1
    ⟨el400, rfl⟩ (fun _ => ⟨blankCanvas, rfl⟩)

/-! ## Claim C6 -/

/-- C6: a markup without an `<svg>` root makes frame 0's render throw
"Invalid SVG structure" before any frame has been captured; on both paths the
failure propagates to the caller as the run's single error and no partial result
is produced (the runs return only the error).  More generally, if the frames
before index `j` rasterize and frame `j`'s rasterization fails, the whole run
aborts with exactly that error — no retry, no partial blob. -/
theorem c6_invalid_markup_aborts :
    (∀ (decode : SeekedMarkup → Except String Canvas) (cap : SmilCap)
        (assemble : List Canvas → ℚ → ℤ → GifshotResult) (sup : String → Bool)
        (s : ConverterSettings) (m : Markup),
        m.root = none → 0 < s.fps → 0 < s.duration →
        generateGif (.ok ()) decode cap assemble m s = .error "Invalid SVG structure"
        ∧ generateVideo decode cap sup m s = .error "Invalid SVG structure")
    ∧ (∀ (decode : SeekedMarkup → Except String Canvas) (cap : SmilCap)
        (assemble : List Canvas → ℚ → ℤ → GifshotResult) (sup : String → Bool)
        (s : ConverterSettings) (m : Markup) (e : String) (j : ℕ),
        j < (totalFrames s).toNat →
        (∀ i, i < j → ∃ c, frameOutcome decode cap m (frameTimestamp s i) s = .ok c) →
        frameOutcome decode cap m (frameTimestamp s j) s = .error e →
        generateGif (.ok ()) decode cap assemble m s = .error e
        ∧ generateVideo decode cap sup m s = .error e) := by
  constructor
  · intro decode cap assemble sup s m hroot hfps hdur
    have hfo : ∀ t, frameOutcome decode cap m t s = .error "Invalid SVG structure" := by
      intro t
      unfold frameOutcome
      rw [hroot]
    have h1 : 1 ≤ totalFrames s := by
      have := Int.ceil_pos.mpr (mul_pos hdur hfps)
      unfold totalFrames
      omega
    obtain ⟨k, hk⟩ : ∃ k, (totalFrames s).toNat = k + 1 :=
      ⟨(totalFrames s).toNat - 1, by omega⟩
    have hsplit : List.range (totalFrames s).toNat
        = [] ++ 0 :: List.map Nat.succ (List.range k) := by
      rw [hk, List.range_succ_eq_map]
      rfl
    constructor
    · unfold generateGif
      rw [hsplit, gifLoop_err decode cap m s _ 0 _ (hfo _) [] initState
        (fun i hi => absurd hi (List.not_mem_nil i))]
      rfl
    · unfold generateVideo
      rw [hsplit, videoLoop_err decode cap m s _ 0 _ (hfo _) [] initState
        (fun i hi => absurd hi (List.not_mem_nil i))]
      rfl
  · intro decode cap assemble sup s m e j hj hok hje
    obtain ⟨k, hk⟩ : ∃ k, (totalFrames s).toNat - j = k + 1 :=
      ⟨(totalFrames s).toNat - j - 1, by omega⟩
    have hr1 : List.range' j ((totalFrames s).toNat - j)
        = j :: List.range' (j + 1) k := by
      rw [hk, List.range'_succ]
    have hsplit : List.range (totalFrames s).toNat
        = List.range j ++ j :: List.range' (j + 1) k := by
      rw [← hr1, List.range_eq_range', List.range_eq_range']
      calc List.range' 0 ((totalFrames s).toNat)
          = List.range' 0 (((totalFrames s).toNat - j) + j) := by
            rw [show ((totalFrames s).toNat - j) + j = (totalFrames s).toNat by omega]
        _ = List.range' 0 j ++ List.range' (0 + 1 * j) ((totalFrames s).toNat - j) :=
            (List.range'_append 0 j ((totalFrames s).toNat - j) 1).symm
        _ = List.range' 0 j ++ List.range' j ((totalFrames s).toNat - j) := by
            norm_num
    have hokmem : ∀ i ∈ List.range j,
        ∃ c, frameOutcome decode cap m (frameTimestamp s i) s = .ok c :=
      fun i hi => hok i (List.mem_range.mp hi)
    constructor
    · unfold generateGif
      rw [hsplit, gifLoop_err decode cap m s e j _ hje (List.range j) initState hokmem]
      rfl
    · unfold generateVideo
      rw [hsplit, videoLoop_err decode cap m s e j _ hje (List.range j) initState hokmem]
      rfl

/-! ## Claims C2 and C5: progress sequences -/

/-- The capture-phase progress sequence a clean GIF run emits. -/
def gifCaptureList (s : ConverterSettings) : List ℤ :=
  (List.range (totalFrames s).toNat).map (gifCaptureProgress s)

/-- The progress sequence a clean video run emits. -/
def videoProgressList (s : ConverterSettings) : List ℤ :=
  (List.range (totalFrames s).toNat).map (videoProgressAt s)

theorem gifCaptureList_mem_bounds (s : ConverterSettings) (hN : 0 < totalFrames s) :
    ∀ v ∈ gifCaptureList s, 0 ≤ v ∧ v ≤ 60 := by
  intro v hv
  obtain ⟨i, hi, rfl⟩ := List.mem_map.mp hv
  exact ⟨gifCaptureProgress_nonneg s hN i,
    gifCaptureProgress_le60 s hN i (List.mem_range.mp hi)⟩

theorem gifCaptureList_chain (s : ConverterSettings) (hN : 0 < totalFrames s) :
    List.Chain' (fun a b => a ≤ b) (gifCaptureList s) :=
  chain_le_map_range _ (gifCaptureProgress_mono s hN) _

theorem videoProgressList_mem_bounds (s : ConverterSettings) (hN : 0 < totalFrames s) :
    ∀ v ∈ videoProgressList s, 0 ≤ v ∧ v ≤ 100 := by
  intro v hv
  obtain ⟨i, hi, rfl⟩ := List.mem_map.mp hv
  exact ⟨videoProgressAt_nonneg s hN i,
    videoProgressAt_le100 s hN i (List.mem_range.mp hi)⟩

theorem videoProgressList_chain (s : ConverterSettings) (hN : 0 < totalFrames s) :
    List.Chain' (fun a b => a ≤ b) (videoProgressList s) :=
  chain_le_map_range _ (videoProgressAt_mono s hN) _

theorem gifEncodeList_mem_bounds (ps : List ℚ) (hp : ∀ p ∈ ps, 0 ≤ p ∧ p ≤ 1) :
    ∀ v ∈ ps.map gifEncodeProgress, 60 ≤ v ∧ v ≤ 100 := by
  intro v hv
  obtain ⟨p, hpmem, rfl⟩ := List.mem_map.mp hv
  exact ⟨gifEncodeProgress_ge p (hp p hpmem).1, gifEncodeProgress_le p (hp p hpmem).2⟩

theorem gifEncodeList_chain (ps : List ℚ) (hc : List.Chain' (fun a b => a ≤ b) ps) :
    List.Chain' (fun a b => a ≤ b) (ps.map gifEncodeProgress) := by
  rw [List.chain'_map]
  exact hc.imp (fun a b hab => gifEncodeProgress_mono hab)

/-- The whole GIF progress stream stays monotone across the 60 boundary. -/
theorem gifFullList_chain (s : ConverterSettings) (hN : 0 < totalFrames s)
    (ps : List ℚ) (hp : ∀ p ∈ ps, 0 ≤ p ∧ p ≤ 1)
    (hc : List.Chain' (fun a b => a ≤ b) ps) :
    List.Chain' (fun a b => a ≤ b) (gifCaptureList s ++ ps.map gifEncodeProgress) := by
  rw [List.chain'_append]
  refine ⟨gifCaptureList_chain s hN, gifEncodeList_chain ps hc, ?_⟩
  intro x hx y hy
  obtain ⟨k, hk⟩ : ∃ k, (totalFrames s).toNat = k + 1 := ⟨(totalFrames s).toNat - 1, by omega⟩
  have hx2 : x = gifCaptureProgress s k := by
    rw [gifCaptureList, hk, getLast?_map_range] at hx
    exact (Option.mem_some_iff.mp hx).symm
  have hx60 : x ≤ 60 := by
    rw [hx2]
    exact gifCaptureProgress_le60 s hN k (by omega)
  rw [List.head?_map] at hy
  cases ps with
  | nil => simp at hy
  | cons p rest =>
      have hy2 : y = gifEncodeProgress p := by
        simp only [List.head?_cons, Option.map_some'] at hy
        exact (Option.mem_some_iff.mp hy).symm
      have h60y : 60 ≤ y := by
        rw [hy2]
        exact gifEncodeProgress_ge p (hp p (List.mem_cons_self p rest)).1
      exact le_trans hx60 h60y

/-- When the assembler's last report is full progress, the whole stream ends at
exactly 100. -/
theorem gifFullList_last (s : ConverterSettings) (ps : List ℚ)
    (hlast : ps.getLast? = some 1) :
    (gifCaptureList s ++ ps.map gifEncodeProgress).getLast? = some 100 := by
  have hne : ps ≠ [] := by
    intro h
    rw [h] at hlast
    exact absurd hlast (by simp)
  have hmapne : ps.map gifEncodeProgress ≠ [] := by simpa using hne
  rw [List.getLast?_append_of_ne_nil _ hmapne, List.getLast?_map, hlast]
  simp [gifEncodeProgress_one]

/-- `generateGif` on a clean capture and a successful assembly. -/
theorem generateGif_ok (decode : SeekedMarkup → Except String Canvas) (cap : SmilCap)
    (assemble : List Canvas → ℚ → ℤ → GifshotResult) (m : Markup)
    (s : ConverterSettings) (frames : List Canvas) (capProg : List ℤ)
    (hloop : gifLoop decode cap m s (List.range (totalFrames s).toNat) initState
      = .ok (frames, capProg))
    (herr : (assemble frames (frameDuration s) (totalFrames s)).error = false) :
    generateGif (.ok ()) decode cap assemble m s
      = .ok (⟨gifMime⟩, capProg
          ++ (assemble frames (frameDuration s) (totalFrames s)).progress.map
            gifEncodeProgress) := by
  unfold generateGif
  rw [hloop]
  show gifFinish assemble s (frames, capProg) = _
  simp only [gifFinish]
  rw [herr]
  rfl

/-- Convenience: the clean-capture loop result, in `gifCaptureList` form. -/
theorem gifLoop_clean (decode : SeekedMarkup → Except String Canvas) (cap : SmilCap)
    (m : Markup) (s : ConverterSettings)
    (hroot : ∃ el, m.root = some el) (hdec : ∀ sm, ∃ c, decode sm = .ok c) :
    ∃ frames, gifLoop decode cap m s (List.range (totalFrames s).toNat) initState
        = .ok (frames, gifCaptureList s) ∧ frames.length = (totalFrames s).toNat := by
  obtain ⟨frames, heq, hlen⟩ := gifLoop_ok decode cap m s
    (List.range (totalFrames s).toNat) initState
    (fun i _ => frameOutcome_ok decode cap m _ s hroot hdec)
  exact ⟨frames, heq, by simpa using hlen⟩

theorem totalFrames_pos (s : ConverterSettings) (hf : 0 < s.fps) (hd : 0 < s.duration) :
    0 < totalFrames s := by
  have := Int.ceil_pos.mpr (mul_pos hd hf)
  unfold totalFrames
  omega

/-- C2 counterexample: a successful video export with `fps = 1`, `duration = 1`
emits the progress sequence `[0]` — the final (and only) reported value of a
successful run is 0, not 100 (`Math.round((i / totalFrames) * 100)` is evaluated
at `i`, never at `i + 1`, so the video path never reports 100 for small frame
counts). -/
theorem c2_counterexample :
    generateVideo okDecode SmilCap.ok noneSupported mSvg sVid1
      = .ok (⟨"video/webm"⟩, [0])
    ∧ ([0] : List ℤ).getLast? = some 0
    ∧ (0 : ℤ) ≠ 100 := by
  refine ⟨?_, rfl, by decide⟩
  unfold generateVideo
  rw [videoLoop_mSvg_sVid1 okDecode SmilCap.ok (fun _ => ⟨blankCanvas, rfl⟩)]
  rfl

/-- C2 amended: on every capture-clean run the progress values are integers, lie
in 0–100 and are monotonically non-decreasing on both paths (for the GIF path
granted the assembler reports monotone fractions in [0,1]).  On the GIF path the
stream ends at exactly 100 whenever the assembler's final report is 1.  On the
video path, however, the final reported value is
`round(((totalFrames-1)/totalFrames)·100)`, which is below 100 for small frame
counts (0 when `totalFrames = 1`, see the counterexample): the video path does
not guarantee a terminal 100. -/
theorem c2_amended_progress (decode : SeekedMarkup → Except String Canvas)
    (cap : SmilCap) (m : Markup) (s : ConverterSettings)
    (assemble : List Canvas → ℚ → ℤ → GifshotResult) (sup : String → Bool)
    (hf : 0 < s.fps) (hd : 0 < s.duration)
    (hroot : ∃ el, m.root = some el) (hdec : ∀ sm, ∃ c, decode sm = .ok c) :
    ∃ frames,
      gifLoop decode cap m s (List.range (totalFrames s).toNat) initState
        = .ok (frames, gifCaptureList s)
      ∧ ((assemble frames (frameDuration s) (totalFrames s)).error = false →
          (∀ p ∈ (assemble frames (frameDuration s) (totalFrames s)).progress,
              0 ≤ p ∧ p ≤ 1) →
          List.Chain' (fun a b => a ≤ b)
              (assemble frames (frameDuration s) (totalFrames s)).progress →
          generateGif (.ok ()) decode cap assemble m s
              = .ok (⟨gifMime⟩, gifCaptureList s
                  ++ (assemble frames (frameDuration s) (totalFrames s)).progress.map
                    gifEncodeProgress)
            ∧ List.Chain' (fun a b => a ≤ b) (gifCaptureList s
                  ++ (assemble frames (frameDuration s) (totalFrames s)).progress.map
                    gifEncodeProgress)
            ∧ (∀ v ∈ gifCaptureList s
                  ++ (assemble frames (frameDuration s) (totalFrames s)).progress.map
                    gifEncodeProgress, 0 ≤ v ∧ v ≤ 100)
            ∧ ((assemble frames (frameDuration s) (totalFrames s)).progress.getLast?
                  = some 1 →
                (gifCaptureList s
                  ++ (assemble frames (frameDuration s) (totalFrames s)).progress.map
                    gifEncodeProgress).getLast? = some 100))
      ∧ (generateVideo decode cap sup m s = .ok (⟨selectMime sup⟩, videoProgressList s)
          ∧ List.Chain' (fun a b => a ≤ b) (videoProgressList s)
          ∧ (∀ v ∈ videoProgressList s, 0 ≤ v ∧ v ≤ 100)
          ∧ (videoProgressList s).getLast?
              = some (videoProgressAt s ((totalFrames s).toNat - 1))) := by
  have hN : 0 < totalFrames s := totalFrames_pos s hf hd
  obtain ⟨frames, hloop, hlen⟩ := gifLoop_clean decode cap m s hroot hdec
  refine ⟨frames, hloop, ?_, ?_, ?_, ?_, ?_⟩
  · intro herr hp hc
    refine ⟨generateGif_ok decode cap assemble m s frames _ hloop herr,
      gifFullList_chain s hN _ hp hc, ?_, gifFullList_last s _⟩
    intro v hv
    rcases List.mem_append.mp hv with h | h
    · have hb := gifCaptureList_mem_bounds s hN v h
      exact ⟨hb.1, le_trans hb.2 (by norm_num)⟩
    · have hb := gifEncodeList_mem_bounds _ hp v h
      exact ⟨le_trans (by norm_num) hb.1, hb.2⟩
  · unfold generateVideo
    rw [videoLoop_ok decode cap m s _ initState
      (fun i _ => frameOutcome_ok decode cap m _ s hroot hdec)]
    rfl
  · exact videoProgressList_chain s hN
  · exact videoProgressList_mem_bounds s hN
  · obtain ⟨k, hk⟩ : ∃ k, (totalFrames s).toNat = k + 1 :=
      ⟨(totalFrames s).toNat - 1, by omega⟩
    rw [videoProgressList, hk, getLast?_map_range,
      show k + 1 - 1 = k from rfl]

theorem c2_witness :
    generateVideo okDecode SmilCap.ok noneSupported mSvg sGif2
      = .ok (⟨selectMime noneSupported⟩, videoProgressList sGif2) :=
  match c2_amended_progress okDecode SmilCap.ok mSvg sGif2 trivialAssemble noneSupported
    (by norm_num [sGif2]) (by norm_num [sGif2]) ⟨el400, rfl⟩
    (fun _ => ⟨blankCanvas, rfl⟩) with
  | ⟨_, _, _, hv, _, _, _⟩ => hv

/-- C5: on a GIF export all `totalFrames` frames are captured (and handed to the
assembler as one complete list) before assembly begins; the capture-phase
progress lies in 0–60 and the encode-phase progress in 60–100; on success the
result blob has MIME type `image/gif`, and the stream ends at exactly 100 when
the assembler's final report is 1 (the 60 boundary separating the phases). -/
theorem c5_two_phase_gif (decode : SeekedMarkup → Except String Canvas)
    (cap : SmilCap) (m : Markup) (s : ConverterSettings)
    (assemble : List Canvas → ℚ → ℤ → GifshotResult)
    (hf : 0 < s.fps) (hd : 0 < s.duration)
    (hroot : ∃ el, m.root = some el) (hdec : ∀ sm, ∃ c, decode sm = .ok c)
    (hp : ∀ fr, ∀ p ∈ (assemble fr (frameDuration s) (totalFrames s)).progress,
        0 ≤ p ∧ p ≤ 1) :
    ∃ frames,
      gifLoop decode cap m s (List.range (totalFrames s).toNat) initState
        = .ok (frames, gifCaptureList s)
      ∧ frames.length = (totalFrames s).toNat
      ∧ (∀ v ∈ gifCaptureList s, 0 ≤ v ∧ v ≤ 60)
      ∧ ((assemble frames (frameDuration s) (totalFrames s)).error = false →
          generateGif (.ok ()) decode cap assemble m s
            = .ok (⟨gifMime⟩, gifCaptureList s
                ++ (assemble frames (frameDuration s) (totalFrames s)).progress.map
                  gifEncodeProgress))
      ∧ (∀ v ∈ (assemble frames (frameDuration s) (totalFrames s)).progress.map
            gifEncodeProgress, 60 ≤ v ∧ v ≤ 100)
      ∧ ((assemble frames (frameDuration s) (totalFrames s)).progress.getLast? = some 1 →
          (gifCaptureList s
            ++ (assemble frames (frameDuration s) (totalFrames s)).progress.map
              gifEncodeProgress).getLast? = some 100) := by
  have hN : 0 < totalFrames s := totalFrames_pos s hf hd
  obtain ⟨frames, hloop, hlen⟩ := gifLoop_clean decode cap m s hroot hdec
  refine ⟨frames, hloop, hlen, gifCaptureList_mem_bounds s hN, ?_, ?_, ?_⟩
  · intro herr
    exact generateGif_ok decode cap assemble m s frames _ hloop herr
  · exact gifEncodeList_mem_bounds _ (hp frames)
  · exact gifFullList_last s _

theorem c5_witness :
    ∃ frames,
      gifLoop okDecode SmilCap.ok mSvg sGif2
          (List.range (totalFrames sGif2).toNat) initState
        = .ok (frames, gifCaptureList sGif2)
      ∧ frames.length = (totalFrames sGif2).toNat :=
  match c5_two_phase_gif okDecode SmilCap.ok mSvg sGif2 trivialAssemble
    (by norm_num [sGif2]) (by norm_num [sGif2]) ⟨el400, rfl⟩
    (fun _ => ⟨blankCanvas, rfl⟩)
    (fun fr p hp => by
      simp only [trivialAssemble, List.mem_singleton] at hp
      subst hp
      norm_num) with
  | ⟨frames, ha, hb, _⟩ => ⟨frames, ha, hb⟩

theorem c6_witness :
    generateGif (.ok ()) okDecode SmilCap.ok trivialAssemble mNoRoot sGif2
        = .error "Invalid SVG structure"
    ∧ generateVideo failDecode SmilCap.ok noneSupported mSvg sVid1
        = .error "Failed to load SVG frame" :=
  ⟨(c6_invalid_markup_aborts.1 okDecode SmilCap.ok trivialAssemble noneSupported sGif2
      mNoRoot rfl (by norm_num [sGif2]) (by norm_num [sGif2])).1,
   (c6_invalid_markup_aborts.2 failDecode SmilCap.ok trivialAssemble noneSupported sVid1
      mSvg "Failed to load SVG frame" 0
      (by rw [totalFrames_sVid1]; decide)
      (fun i hi => absurd hi (Nat.not_lt_zero i))
      rfl).2⟩

end VectorMotionPro
